import Mathlib

/-!
Verification of the TIR frame hierarchy of `include/tvm/script/ir_builder/tir/frame.h`:
the statement-accumulating base frame (`TIRFrameNode.stmts`), and the three concrete
frame kinds `PrimFuncFrameNode`, `BlockFrameNode`, `AssertFrameNode`, together with
their scope-exit assembly contracts.  The header declares the data model (field types
and optionality); the `ExitWithScope` bodies are not part of the header, so the
exit-time assembly and validation logic is modelled from the specification's
exit contracts (sections 4.1-4.3 of the design document).
-/

namespace TVMScript

/-- Variables (`tvm::tir::Var`) are modelled by identity only. -/
abbrev Var := Nat

/-- Buffers (`tvm::tir::Buffer`) are modelled by identity only. -/
abbrev Buffer := Nat

/-- Iteration variables (`tvm::tir::IterVar`) are modelled by identity only. -/
abbrev IterVar := Nat

/-- Types (`tvm::Type`) are modelled by identity only. -/
abbrev Ty := Nat

/-- Buffer regions (`tvm::tir::BufferRegion`) are modelled by identity only. -/
abbrev BufferRegion := Nat

/-- Match-buffer regions (`tvm::tir::MatchBufferRegion`) are modelled by identity. -/
abbrev MatchBufferRegion := Nat

/-- Attribute metadata values (`ObjectRef`) are modelled by identity only. -/
abbrev AttrVal := Nat

/-- Expressions (`PrimExpr`).  The frames never inspect expressions except that the
block-realize wrapper defaults an absent predicate to the literal `true`, so the
model keeps a boolean literal and opaque atoms supplied by the external
expression sub-builder. -/
inductive PrimExpr where
  | boolLit : Bool → PrimExpr
  | atom : Nat → PrimExpr
deriving DecidableEq, Repr

/-- Statements (`tvm::tir::Stmt`), restricted to the node kinds this core produces:
the empty statement, opaque leaf statements emitted by collaborators, the
ordered-sequence node (`SeqStmt`), the assert-statement node (`AssertStmt`), the
bare block node (`Block`: name, iter vars, reads, writes, init, alloc buffers,
match buffers, annotation map, body) and the realized-block node
(`BlockRealize`: iter values, predicate, block). -/
inductive Stmt where
  | evaluate0 : Stmt
  | prim : Nat → Stmt
  | seq : List Stmt → Stmt
  | assertStmt : PrimExpr → PrimExpr → Stmt → Stmt
  | block : String → List IterVar → Option (List BufferRegion) → Option (List BufferRegion) →
      Option Stmt → List Buffer → List MatchBufferRegion →
      Option (List (String × AttrVal)) → Stmt → Stmt
  | blockRealize : List PrimExpr → PrimExpr → Stmt → Stmt

/-- The function IR node assembled by a function frame's exit (spec section 4.1
step 3): name, params, return type, body, buffer maps, attributes,
environment-thread bindings, root allocations. -/
structure PrimFunc where
  name : Option String
  params : List Var
  ret_type : Option Ty
  body : Stmt
  buffer_map : List (Var × Buffer)
  preflattened_buffer_map : List (Var × Buffer)
  attrs : Option (List (String × AttrVal))
  env_threads : List (Var × IterVar)
  root_alloc_buffers : List Buffer

/-- `PrimFuncFrameNode` (frame.h lines 68-108): the `stmts` field is inherited from
`TIRFrameNode`; `name` and `ret_type` are `Optional` in the header, the maps are
modelled as association lists. -/
structure PrimFuncFrameNode where
  stmts : List Stmt
  name : Option String
  args : List Var
  ret_type : Option Ty
  buffer_map : List (Var × Buffer)
  preflattened_buffer_map : List (Var × Buffer)
  attrs : Option (List (String × AttrVal))
  env_threads : List (Var × IterVar)
  root_alloc_buffers : List Buffer

/-- `BlockFrameNode` (frame.h lines 125-177): `stmts` inherited from `TIRFrameNode`;
`reads`, `writes`, `init`, the annotation map (source field name with an extra "ation")
and `predicate` are `Optional` in the header; `no_realize` is a plain `bool`.
`annots` models the header's `Optional<Map<String, ObjectRef>>` annotation field. -/
structure BlockFrameNode where
  stmts : List Stmt
  name : String
  iter_vars : List IterVar
  reads : Option (List BufferRegion)
  writes : Option (List BufferRegion)
  init : Option Stmt
  alloc_buffers : List Buffer
  match_buffers : List MatchBufferRegion
  annots : Option (List (String × AttrVal))
  iter_values : List PrimExpr
  predicate : Option PrimExpr
  no_realize : Bool

/-- `AssertFrameNode` (frame.h lines 196-218): `stmts` inherited from `TIRFrameNode`;
`condition` and `message` are plain (non-optional) `PrimExpr` fields in the header. -/
structure AssertFrameNode where
  stmts : List Stmt
  condition : PrimExpr
  message : PrimExpr

/-- The structural-validation errors of the error-handling design (spec section 7). -/
inductive BuilderError where
  | unboundBufferParameterError
  | blockBindingArityError
  | incompleteAssertionError
  | noEnclosingStatementFrameError
  | illFormedNestingError
deriving DecidableEq, Repr

/-- Modelled from the spec: the missing body-combination helper used by every exit
that assembles a body (spec section 4.1 step 2): zero statements yield the empty
statement, one statement is used directly, more than one are wrapped in a single
ordered-sequence node preserving their order. -/
def asStmt : List Stmt → Stmt
  | [] => Stmt.evaluate0
  | [s] => s
  | l => Stmt.seq l

/-- Modelled from the spec: the binding-arity invariant checked by the missing
`BlockFrameNode::ExitWithScope` (spec sections 3 and 4.2 step 1): when
`no_realize` is true, `iter_values` must be empty and `predicate` absent;
otherwise `iter_values` and `iter_vars` must have equal length. -/
def bindingArityOk (bf : BlockFrameNode) : Bool :=
  if bf.no_realize then decide (bf.iter_values = [] ∧ bf.predicate = none)
  else decide (bf.iter_values.length = bf.iter_vars.length)

/-- Modelled from the spec: the node-assembly part of the missing
`BlockFrameNode::ExitWithScope` (spec section 4.2 steps 1-4): validate the
binding arity (failing with `BlockBindingArityError`), combine `stmts` into a
body, build the block node, and wrap it into a realized-block node (predicate
defaulting to the literal true) unless `no_realize` is set. -/
def blockExit (bf : BlockFrameNode) : Except BuilderError Stmt :=
  if bindingArityOk bf then
    let blk := Stmt.block bf.name bf.iter_vars bf.reads bf.writes bf.init
      bf.alloc_buffers bf.match_buffers bf.annots (asStmt bf.stmts)
    if bf.no_realize then Except.ok blk
    else Except.ok (Stmt.blockRealize bf.iter_values
      (bf.predicate.getD (PrimExpr.boolLit true)) blk)
  else Except.error BuilderError.blockBindingArityError

/-- Keys of an association list all occur among the declared parameters. -/
def keysSubset (m : List (Var × Nat)) (ps : List Var) : Bool :=
  m.all fun kv => decide (kv.1 ∈ ps)

/-- Modelled from the spec: the missing `PrimFuncFrameNode::ExitWithScope`
(spec section 4.1 steps 1-3): validate that every `buffer_map` and `env_threads`
key is a declared parameter (failing with `UnboundBufferParameterError`), combine
`stmts` into a body, and assemble the function IR node from the frame's fields. -/
def funcExit (ff : PrimFuncFrameNode) : Except BuilderError PrimFunc :=
  if keysSubset ff.buffer_map ff.args && keysSubset ff.env_threads ff.args then
    Except.ok { name := ff.name, params := ff.args, ret_type := ff.ret_type,
                body := asStmt ff.stmts, buffer_map := ff.buffer_map,
                preflattened_buffer_map := ff.preflattened_buffer_map,
                attrs := ff.attrs, env_threads := ff.env_threads,
                root_alloc_buffers := ff.root_alloc_buffers }
  else Except.error BuilderError.unboundBufferParameterError

/-- A frame on the scope stack.  The `Nat` carried by an assert frame is the
parent frame's statement count at the moment the assert frame was pushed;
this bookkeeping is modelled from the spec (section 4.3 step 2 consumes exactly
the parent statements appended after the push) since the implementation is
missing from the header. -/
inductive Frame where
  | func : PrimFuncFrameNode → Frame
  | blockF : BlockFrameNode → Frame
  | assertF : AssertFrameNode → Nat → Frame

/-- The accumulated `stmts` of a frame (the `TIRFrameNode::stmts` field). -/
def Frame.stmts : Frame → List Stmt
  | .func f => f.stmts
  | .blockF f => f.stmts
  | .assertF f _ => f.stmts

/-- Replace a frame's accumulated `stmts`, keeping every other field. -/
def Frame.setStmts : Frame → List Stmt → Frame
  | .func f, l => .func { f with stmts := l }
  | .blockF f, l => .blockF { f with stmts := l }
  | .assertF f m, l => .assertF { f with stmts := l } m

/-- A builder session: the scope stack (innermost frame first) and the
module-level registry of completed functions. -/
structure BuilderState where
  frames : List Frame
  globalFuncs : List PrimFunc

/-- The operations of a builder session: emit a statement to the innermost
frame, enter one of the three frame kinds, or exit the innermost frame. -/
inductive Event where
  | emit : Stmt → Event
  | enterFunc : PrimFuncFrameNode → Event
  | enterBlock : BlockFrameNode → Event
  | enterAssert : PrimExpr → PrimExpr → Event
  | exitTop : Event

/-- Modelled from the spec: one step of the builder session (spec section 2
control flow plus the missing `ExitWithScope` bodies).  Emission appends to the
innermost frame's `stmts`; entering pushes a frame with empty `stmts` (an assert
frame records the parent's current statement count); exiting a function frame
registers the assembled node with the module registry and touches no other
frame; exiting a block frame appends the assembled node to the enclosing
statement frame, failing with `NoEnclosingStatementFrameError` when there is
none; exiting an assert frame replaces the parent statements appended since the
push by a single assert-statement node guarding them. -/
def step (s : BuilderState) : Event → Except BuilderError BuilderState
  | .emit st =>
    match s.frames with
    | [] => Except.error BuilderError.illFormedNestingError
    | f :: rest =>
      Except.ok { s with frames := f.setStmts (f.stmts ++ [st]) :: rest }
  | .enterFunc ff =>
      Except.ok { s with frames := Frame.func { ff with stmts := [] } :: s.frames }
  | .enterBlock bf =>
      Except.ok { s with frames := Frame.blockF { bf with stmts := [] } :: s.frames }
  | .enterAssert c m =>
    let af : AssertFrameNode := { stmts := [], condition := c, message := m }
    match s.frames with
    | [] =>
      Except.ok { s with frames := [Frame.assertF af 0] }
    | p :: rest =>
      Except.ok { s with frames := Frame.assertF af p.stmts.length :: p :: rest }
  | .exitTop =>
    match s.frames with
    | [] => Except.error BuilderError.illFormedNestingError
    | Frame.func ff :: rest =>
      match funcExit ff with
      | .error e => Except.error e
      | .ok node => Except.ok { frames := rest, globalFuncs := s.globalFuncs ++ [node] }
    | Frame.blockF bf :: rest =>
      match blockExit bf with
      | .error e => Except.error e
      | .ok node =>
        match rest with
        | [] => Except.error BuilderError.noEnclosingStatementFrameError
        | p :: rest' =>
          Except.ok { s with frames := p.setStmts (p.stmts ++ [node]) :: rest' }
    | Frame.assertF af mark :: rest =>
      match rest with
      | [] => Except.error BuilderError.noEnclosingStatementFrameError
      | p :: rest' =>
        let node := Stmt.assertStmt af.condition af.message (asStmt (p.stmts.drop mark))
        Except.ok { s with frames := p.setStmts (p.stmts.take mark ++ [node]) :: rest' }

/-- Run a sequence of builder events, stopping at the first failure. -/
def runTrace : BuilderState → List Event → Except BuilderError BuilderState
  | s, [] => Except.ok s
  | s, ev :: evs =>
    match step s ev with
    | .ok s' => runTrace s' evs
    | .error e => Except.error e

/-- Every assert frame's recorded mark equals the statement count of the frame
directly beneath it; this holds at push time and is preserved by every step. -/
def marksOk : List Frame → Bool
  | [] => true
  | .assertF _ mark :: rest =>
    (match rest with
     | [] => true
     | p :: _ => mark == p.stmts.length) && marksOk rest
  | .func _ :: rest => marksOk rest
  | .blockF _ :: rest => marksOk rest

/-- Extract the combined body out of a bare block node or a realized-block node. -/
def blockBodyOf : Stmt → Option Stmt
  | .block _ _ _ _ _ _ _ _ body => some body
  | .blockRealize _ _ (.block _ _ _ _ _ _ _ _ body) => some body
  | _ => none

theorem stmts_setStmts (f : Frame) (l : List Stmt) : (f.setStmts l).stmts = l := by
  cases f <;> rfl

theorem setStmts_setStmts (f : Frame) (l1 l2 : List Stmt) :
    (f.setStmts l1).setStmts l2 = f.setStmts l2 := by
  cases f <;> rfl

theorem setStmts_self (f : Frame) : f.setStmts f.stmts = f := by
  cases f <;> rfl

theorem blockExit_error_eq (bf : BlockFrameNode) (e : BuilderError)
    (h : blockExit bf = Except.error e) : e = BuilderError.blockBindingArityError := by
  by_cases hb : bindingArityOk bf = true
  · by_cases hnr : bf.no_realize = true <;> simp [blockExit, hb, hnr] at h
  · simp [blockExit, hb] at h
    exact h.symm

theorem funcExit_error_eq (ff : PrimFuncFrameNode) (e : BuilderError)
    (h : funcExit ff = Except.error e) : e = BuilderError.unboundBufferParameterError := by
  by_cases hb : (keysSubset ff.buffer_map ff.args && keysSubset ff.env_threads ff.args) = true
  · simp [funcExit, hb] at h
  · simp [funcExit, hb] at h
    exact h.symm

/-- Claim C3: every body-assembling frame exit (function, block and assert frame)
combines the relevant statement sequence by the zero/one/many rule: zero
statements yield the empty statement, one is used directly, more than one are
wrapped in a single ordered-sequence node preserving order; the function and
block exits build their bodies from their accumulated statements with exactly
this rule, and a successful assert-frame exit builds the guarded body of the
appended assert node from the consumed parent suffix with the same rule. -/
theorem asStmt_combine_rule :
    asStmt [] = Stmt.evaluate0
    ∧ (∀ s : Stmt, asStmt [s] = s)
    ∧ (∀ l : List Stmt, 2 ≤ l.length → asStmt l = Stmt.seq l)
    ∧ (∀ (ff : PrimFuncFrameNode) (node : PrimFunc),
        funcExit ff = Except.ok node → node.body = asStmt ff.stmts)
    ∧ (∀ (bf : BlockFrameNode) (node : Stmt),
        blockExit bf = Except.ok node → blockBodyOf node = some (asStmt bf.stmts))
    ∧ (∀ (s s' : BuilderState) (af : AssertFrameNode) (mark : Nat) (p : Frame)
        (rest : List Frame),
        s.frames = Frame.assertF af mark :: p :: rest →
        step s Event.exitTop = Except.ok s' →
        s'.frames = p.setStmts (p.stmts.take mark ++
          [Stmt.assertStmt af.condition af.message (asStmt (p.stmts.drop mark))]) :: rest) := by
  refine ⟨rfl, fun s => rfl, ?_, ?_, ?_, ?_⟩
  · intro l h
    match l with
    | [] => simp at h
    | [_] => simp at h
    | _ :: _ :: _ => rfl
  · intro ff node h
    by_cases hb : (keysSubset ff.buffer_map ff.args && keysSubset ff.env_threads ff.args) = true
    · simp [funcExit, hb] at h
      rw [← h]
    · simp [funcExit, hb] at h
  · intro bf node h
    by_cases hb : bindingArityOk bf = true
    · by_cases hnr : bf.no_realize = true <;> simp [blockExit, hb, hnr] at h <;>
        rw [← h] <;> rfl
    · simp [blockExit, hb] at h
  · intro s s' af mark p rest hf hstep
    simp [step, hf] at hstep
    subst hstep
    rfl

/-- Claim C2: a block frame's exit validates the binding-arity invariant: with
`no_realize` false the exit fails with `BlockBindingArityError` exactly when
`iter_values` and `iter_vars` have different lengths, with `no_realize` true it
fails with `BlockBindingArityError` exactly when `iter_values` is nonempty or a
predicate is present, and no other error is ever produced. -/
theorem blockExit_binding_arity (bf : BlockFrameNode) :
    (bf.no_realize = false →
      (blockExit bf = Except.error BuilderError.blockBindingArityError
        ↔ bf.iter_values.length ≠ bf.iter_vars.length))
    ∧ (bf.no_realize = true →
      (blockExit bf = Except.error BuilderError.blockBindingArityError
        ↔ ¬(bf.iter_values = [] ∧ bf.predicate = none)))
    ∧ (∀ e, blockExit bf = Except.error e → e = BuilderError.blockBindingArityError) := by
  refine ⟨?_, ?_, blockExit_error_eq bf⟩
  · intro hnr
    by_cases hlen : bf.iter_values.length = bf.iter_vars.length <;>
      simp [blockExit, bindingArityOk, hnr, hlen]
  · intro hnr
    by_cases hv : bf.iter_values = [] ∧ bf.predicate = none <;>
      simp [blockExit, bindingArityOk, hnr, hv]

/-- Claim C7: on a successful block-frame exit, when `no_realize` is false the
built block node is wrapped with `iter_values` and the predicate (an absent
predicate defaulting to the literal true expression) into a realized-block
node, and when `no_realize` is true the bare block node is produced unwrapped. -/
theorem blockExit_realize_wrapping (bf : BlockFrameNode) (node : Stmt)
    (h : blockExit bf = Except.ok node) :
    (bf.no_realize = true →
      node = Stmt.block bf.name bf.iter_vars bf.reads bf.writes bf.init
        bf.alloc_buffers bf.match_buffers bf.annots (asStmt bf.stmts))
    ∧ (bf.no_realize = false →
      node = Stmt.blockRealize bf.iter_values (bf.predicate.getD (PrimExpr.boolLit true))
        (Stmt.block bf.name bf.iter_vars bf.reads bf.writes bf.init
          bf.alloc_buffers bf.match_buffers bf.annots (asStmt bf.stmts))) := by
  by_cases hb : bindingArityOk bf = true
  · by_cases hnr : bf.no_realize = true <;> simp [blockExit, hb, hnr] at h <;>
      constructor <;> intro h2 <;> simp [hnr] at h2 ⊢ <;> exact h.symm
  · simp [blockExit, hb] at h

theorem keysSubset_iff (m : List (Var × Nat)) (ps : List Var) :
    keysSubset m ps = true ↔ ∀ kv ∈ m, kv.1 ∈ ps := by
  simp [keysSubset, List.all_eq_true]

theorem funcExit_eq_ok (ff : PrimFuncFrameNode)
    (hb : ∀ kv ∈ ff.buffer_map, kv.1 ∈ ff.args)
    (he : ∀ kv ∈ ff.env_threads, kv.1 ∈ ff.args) :
    funcExit ff = Except.ok (PrimFunc.mk ff.name ff.args ff.ret_type (asStmt ff.stmts)
      ff.buffer_map ff.preflattened_buffer_map ff.attrs ff.env_threads
      ff.root_alloc_buffers) := by
  have h1 : keysSubset ff.buffer_map ff.args = true := (keysSubset_iff _ _).mpr hb
  have h2 : keysSubset ff.env_threads ff.args = true := (keysSubset_iff _ _).mpr he
  simp [funcExit, h1, h2]

/-- Claim C5: a function frame's exit validates that every key of `buffer_map`
and of `env_threads` is a declared parameter, failing with
`UnboundBufferParameterError` when some key is not; on success it assembles the
function IR node from the frame's name, params, return type, combined body,
buffer maps, attributes, environment-thread bindings and root allocations. -/
theorem funcExit_validates_bindings (ff : PrimFuncFrameNode) :
    ((∀ kv ∈ ff.buffer_map, kv.1 ∈ ff.args) ∧ (∀ kv ∈ ff.env_threads, kv.1 ∈ ff.args) →
      funcExit ff = Except.ok (PrimFunc.mk ff.name ff.args ff.ret_type (asStmt ff.stmts)
        ff.buffer_map ff.preflattened_buffer_map ff.attrs ff.env_threads
        ff.root_alloc_buffers))
    ∧ (¬((∀ kv ∈ ff.buffer_map, kv.1 ∈ ff.args) ∧ (∀ kv ∈ ff.env_threads, kv.1 ∈ ff.args)) →
      funcExit ff = Except.error BuilderError.unboundBufferParameterError) := by
  constructor
  · intro h
    exact funcExit_eq_ok ff h.1 h.2
  · intro h
    have hb : (keysSubset ff.buffer_map ff.args && keysSubset ff.env_threads ff.args) = false := by
      rcases not_and_or.mp h with h1 | h1
      · have : keysSubset ff.buffer_map ff.args = false := by
          rcases Bool.eq_false_or_eq_true (keysSubset ff.buffer_map ff.args) with h2 | h2
          · exact absurd ((keysSubset_iff _ _).mp h2) h1
          · exact h2
        simp [this]
      · have : keysSubset ff.env_threads ff.args = false := by
          rcases Bool.eq_false_or_eq_true (keysSubset ff.env_threads ff.args) with h2 | h2
          · exact absurd ((keysSubset_iff _ _).mp h2) h1
          · exact h2
        simp [this]
    simp [funcExit, hb]

/-- Claim C10: a function frame's `name` and `ret_type` are both optional; a
frame constructed with neither set exits successfully (given its binding keys
are declared parameters), producing a function node with no name and no
declared return type. -/
theorem funcExit_optional_name_ret (ff : PrimFuncFrameNode)
    (hn : ff.name = none) (hr : ff.ret_type = none)
    (hb : ∀ kv ∈ ff.buffer_map, kv.1 ∈ ff.args)
    (he : ∀ kv ∈ ff.env_threads, kv.1 ∈ ff.args) :
    ∃ node, funcExit ff = Except.ok node ∧ node.name = none ∧ node.ret_type = none := by
  refine ⟨_, funcExit_eq_ok ff hb he, hn, hr⟩

/-- Claim C9: an assert frame's `condition` and `message` are mandatory,
non-optional fields of the data model, so exiting an assert frame can never
produce `IncompleteAssertionError` -- that branch of the exit contract is
unreachable on a well-typed frame. -/
theorem assert_exit_never_incomplete (s : BuilderState) (af : AssertFrameNode)
    (mark : Nat) (rest : List Frame)
    (hf : s.frames = Frame.assertF af mark :: rest) :
    step s Event.exitTop ≠ Except.error BuilderError.incompleteAssertionError := by
  cases rest with
  | nil => simp [step, hf]
  | cons p rest' => simp [step, hf]

/-- Claim C1: when an assert frame exits, the parent statements appended after
the frame was pushed (those past the recorded mark) are combined by the
zero/one/many rule into the assertion's guarded body, removed from the parent's
sequence, and replaced by a single assert-statement node carrying the frame's
condition, message and that body, so a parent with `count_before` entries and
`N` subsequent statements ends with `count_before - N + 1` entries. -/
theorem assertFrame_exit_consumes (s s' : BuilderState) (af : AssertFrameNode)
    (mark : Nat) (p : Frame) (rest : List Frame)
    (hf : s.frames = Frame.assertF af mark :: p :: rest)
    (hm : mark ≤ p.stmts.length)
    (hstep : step s Event.exitTop = Except.ok s') :
    s'.frames = p.setStmts (p.stmts.take mark ++
        [Stmt.assertStmt af.condition af.message (asStmt (p.stmts.drop mark))]) :: rest
    ∧ s'.globalFuncs = s.globalFuncs
    ∧ (p.setStmts (p.stmts.take mark ++
        [Stmt.assertStmt af.condition af.message (asStmt (p.stmts.drop mark))])).stmts.length
      = p.stmts.length - (p.stmts.drop mark).length + 1 := by
  simp [step, hf] at hstep
  subst hstep
  refine ⟨rfl, rfl, ?_⟩
  rw [stmts_setStmts, List.length_append, List.length_take, List.length_drop,
    Nat.min_eq_left hm]
  simp
  omega

/-- Claim C6: when a block frame exits successfully, the produced node is
appended to the statements of the new-innermost enclosing statement frame, and
when no enclosing frame exists the exit fails with
`NoEnclosingStatementFrameError`. -/
theorem blockFrame_exit_appends (s : BuilderState) (bf : BlockFrameNode)
    (rest : List Frame) (node : Stmt)
    (hf : s.frames = Frame.blockF bf :: rest)
    (hok : blockExit bf = Except.ok node) :
    (rest = [] → step s Event.exitTop = Except.error BuilderError.noEnclosingStatementFrameError)
    ∧ (∀ p rest', rest = p :: rest' → ∃ s', step s Event.exitTop = Except.ok s'
        ∧ s'.frames = p.setStmts (p.stmts ++ [node]) :: rest'
        ∧ s'.globalFuncs = s.globalFuncs) := by
  constructor
  · intro hr
    subst hr
    simp [step, hf, hok]
  · intro p rest' hr
    subst hr
    have hstep : step s Event.exitTop =
        Except.ok (BuilderState.mk (p.setStmts (p.stmts ++ [node]) :: rest') s.globalFuncs) := by
      simp [step, hf, hok]
    exact ⟨_, hstep, rfl, rfl⟩

/-- Claim C8: when a function frame exits successfully, the assembled function
node is registered with the module-level registry, the frame is popped, and
every other frame on the stack is left exactly as it was -- nothing is appended
to any parent frame's statements. -/
theorem funcFrame_exit_registers (s : BuilderState) (ff : PrimFuncFrameNode)
    (rest : List Frame) (node : PrimFunc)
    (hf : s.frames = Frame.func ff :: rest)
    (hok : funcExit ff = Except.ok node) :
    ∃ s', step s Event.exitTop = Except.ok s'
      ∧ s'.frames = rest ∧ s'.globalFuncs = s.globalFuncs ++ [node] := by
  have hstep : step s Event.exitTop =
      Except.ok (BuilderState.mk rest (s.globalFuncs ++ [node])) := by
    simp [step, hf, hok]
  exact ⟨_, hstep, rfl, rfl⟩

theorem marksOk_cons_setStmts (f : Frame) (l : List Stmt) (rest : List Frame) :
    marksOk (f.setStmts l :: rest) = marksOk (f :: rest) := by
  cases f <;> rfl

theorem marksOk_tail (f : Frame) (rest : List Frame)
    (h : marksOk (f :: rest) = true) : marksOk rest = true := by
  cases f with
  | func _ => exact h
  | blockF _ => exact h
  | assertF af m =>
    simp only [marksOk, Bool.and_eq_true] at h
    exact h.2

theorem marksOk_assert_head (af : AssertFrameNode) (m : Nat) (p : Frame)
    (rest : List Frame) (h : marksOk (Frame.assertF af m :: p :: rest) = true) :
    m = p.stmts.length := by
  simp only [marksOk, Bool.and_eq_true, beq_iff_eq] at h
  exact h.1

theorem step_wf_append_cases (s : BuilderState) (ev : Event) (s' : BuilderState)
    (hwf : marksOk s.frames = true) (h : step s ev = Except.ok s') :
    marksOk s'.frames = true ∧
      ((∃ fr, s'.frames = fr :: s.frames ∧ fr.stmts = [])
       ∨ (∃ f rest x, s.frames = f :: rest
            ∧ s'.frames = f.setStmts (f.stmts ++ [x]) :: rest)
       ∨ (∃ f p rest x, s.frames = f :: p :: rest
            ∧ s'.frames = p.setStmts (p.stmts ++ [x]) :: rest)
       ∨ (∃ f, s.frames = f :: s'.frames)) := by
  cases ev with
  | emit st =>
    cases hs : s.frames with
    | nil => simp [step, hs] at h
    | cons f rest =>
      simp [step, hs] at h
      subst h
      constructor
      · rw [show (BuilderState.mk (f.setStmts (f.stmts ++ [st]) :: rest) s.globalFuncs).frames
            = f.setStmts (f.stmts ++ [st]) :: rest from rfl, marksOk_cons_setStmts]
        rw [hs] at hwf
        exact hwf
      · exact Or.inr (Or.inl ⟨f, rest, st, rfl, rfl⟩)
  | enterFunc ff =>
    simp [step] at h
    subst h
    exact ⟨hwf, Or.inl ⟨_, rfl, rfl⟩⟩
  | enterBlock bf =>
    simp [step] at h
    subst h
    exact ⟨hwf, Or.inl ⟨_, rfl, rfl⟩⟩
  | enterAssert c m =>
    cases hs : s.frames with
    | nil =>
      simp [step, hs] at h
      subst h
      exact ⟨rfl, Or.inl ⟨Frame.assertF { stmts := [], condition := c, message := m } 0, rfl, rfl⟩⟩
    | cons p rest =>
      simp [step, hs] at h
      subst h
      constructor
      · show ((p.stmts.length == p.stmts.length) && marksOk (p :: rest)) = true
        rw [hs] at hwf
        simp [hwf]
      · exact Or.inl ⟨Frame.assertF { stmts := [], condition := c, message := m }
          p.stmts.length, rfl, rfl⟩
  | exitTop =>
    cases hs : s.frames with
    | nil => simp [step, hs] at h
    | cons f rest =>
      cases f with
      | func ff =>
        cases hfe : funcExit ff with
        | error e => simp [step, hs, hfe] at h
        | ok node =>
          simp [step, hs, hfe] at h
          subst h
          refine ⟨?_, Or.inr (Or.inr (Or.inr ⟨Frame.func ff, rfl⟩))⟩
          rw [hs] at hwf
          exact marksOk_tail _ _ hwf
      | blockF bf =>
        cases hbe : blockExit bf with
        | error e => simp [step, hs, hbe] at h
        | ok node =>
          cases rest with
          | nil => simp [step, hs, hbe] at h
          | cons p rest' =>
            simp [step, hs, hbe] at h
            subst h
            constructor
            · rw [show (BuilderState.mk (p.setStmts (p.stmts ++ [node]) :: rest') s.globalFuncs).frames
                  = p.setStmts (p.stmts ++ [node]) :: rest' from rfl, marksOk_cons_setStmts]
              rw [hs] at hwf
              exact marksOk_tail _ _ hwf
            · exact Or.inr (Or.inr (Or.inl ⟨Frame.blockF bf, p, rest', node, rfl, rfl⟩))
      | assertF af mark =>
        cases rest with
        | nil => simp [step, hs] at h
        | cons p rest' =>
          simp [step, hs] at h
          rw [hs] at hwf
          have hmark : mark = p.stmts.length := marksOk_assert_head af mark p rest' hwf
          subst h
          subst hmark
          constructor
          · rw [show (BuilderState.mk
                  (p.setStmts (p.stmts.take p.stmts.length ++
                    [Stmt.assertStmt af.condition af.message (asStmt (p.stmts.drop p.stmts.length))]) :: rest')
                  s.globalFuncs).frames
                = p.setStmts (p.stmts.take p.stmts.length ++
                    [Stmt.assertStmt af.condition af.message (asStmt (p.stmts.drop p.stmts.length))]) :: rest'
                from rfl, marksOk_cons_setStmts]
            exact marksOk_tail _ _ hwf
          · refine Or.inr (Or.inr (Or.inl ⟨Frame.assertF af p.stmts.length, p, rest',
              Stmt.assertStmt af.condition af.message (asStmt (p.stmts.drop p.stmts.length)),
              rfl, ?_⟩))
            rw [List.take_length]

theorem runTrace_emits_order (es : List Stmt) :
    ∀ (s : BuilderState) (f : Frame) (rest : List Frame) (s' : BuilderState),
      s.frames = f :: rest → runTrace s (es.map Event.emit) = Except.ok s' →
      s'.frames = f.setStmts (f.stmts ++ es) :: rest := by
  induction es with
  | nil =>
    intro s f rest s' hf h
    simp [runTrace] at h
    subst h
    rw [List.append_nil, setStmts_self]
    exact hf
  | cons e es ih =>
    intro s f rest s' hf h
    have hstep : step s (Event.emit e)
        = Except.ok (BuilderState.mk (f.setStmts (f.stmts ++ [e]) :: rest) s.globalFuncs) := by
      simp [step, hf]
    rw [List.map_cons, runTrace, hstep] at h
    have := ih _ _ _ _ rfl h
    rw [stmts_setStmts, setStmts_setStmts, List.append_assoc] at this
    simpa using this

/-- Claim C4: frame statement sequences are mutated only by append -- every
successful step either pushes a fresh frame with empty statements, appends one
statement to the innermost frame, appends exactly one assembled node to the
newly innermost frame, or pops the function frame leaving all others untouched
(and the assert-mark invariant `marksOk` is preserved) -- and a run of
emissions extends the innermost frame's statements with exactly the emitted
statements in emission order, so assembled statement order equals emission
order. -/
theorem statements_append_only_program_order :
    (∀ (s : BuilderState) (ev : Event) (s' : BuilderState),
      marksOk s.frames = true → step s ev = Except.ok s' →
      marksOk s'.frames = true ∧
        ((∃ fr, s'.frames = fr :: s.frames ∧ fr.stmts = [])
         ∨ (∃ f rest x, s.frames = f :: rest
              ∧ s'.frames = f.setStmts (f.stmts ++ [x]) :: rest)
         ∨ (∃ f p rest x, s.frames = f :: p :: rest
              ∧ s'.frames = p.setStmts (p.stmts ++ [x]) :: rest)
         ∨ (∃ f, s.frames = f :: s'.frames)))
    ∧ (∀ (es : List Stmt) (s : BuilderState) (f : Frame) (rest : List Frame)
        (s' : BuilderState),
      s.frames = f :: rest → runTrace s (es.map Event.emit) = Except.ok s' →
      s'.frames = f.setStmts (f.stmts ++ es) :: rest) :=
  ⟨step_wf_append_cases, runTrace_emits_order⟩

/-- A function frame with no name, no return type, no parameters and no bindings. -/
def ffEmpty : PrimFuncFrameNode := ⟨[], none, [], none, [], [], none, [], []⟩

/-- A function frame whose `buffer_map` references variable 3, absent from `args`. -/
def ffUnbound : PrimFuncFrameNode := ⟨[], none, [], none, [(3, 0)], [], none, [], []⟩

/-- A statement frame holding two already-emitted statements. -/
def pFrame : Frame := Frame.func ⟨[Stmt.prim 0, Stmt.prim 1], none, [], none, [], [], none, [], []⟩

/-- An assert frame with condition `atom 0` and message `atom 1`. -/
def afEx : AssertFrameNode := ⟨[], PrimExpr.atom 0, PrimExpr.atom 1⟩

/-- A session about to exit an assert frame pushed when its parent held one statement. -/
def sAssert : BuilderState := ⟨[Frame.assertF afEx 1, pFrame], []⟩

/-- The session after the assert exit: the second parent statement is consumed
into the assert node's body. -/
def sAssertDone : BuilderState :=
  ⟨[Frame.func ⟨[Stmt.prim 0,
      Stmt.assertStmt (PrimExpr.atom 0) (PrimExpr.atom 1) (Stmt.prim 1)],
      none, [], none, [], [], none, [], []⟩], []⟩

/-- A block frame with `no_realize = true` but a nonempty `iter_values`. -/
def bfBad : BlockFrameNode :=
  ⟨[], "b", [], none, none, none, [], [], none, [PrimExpr.atom 0], none, true⟩

/-- A realizable block frame with one iteration variable bound to one value. -/
def bfReal : BlockFrameNode :=
  ⟨[Stmt.prim 7], "b", [5], none, none, none, [], [], none, [PrimExpr.atom 1], none, false⟩

/-- The realized-block node produced by exiting `bfReal`. -/
def nodeReal : Stmt :=
  Stmt.blockRealize [PrimExpr.atom 1] (PrimExpr.boolLit true)
    (Stmt.block "b" [5] none none none [] [] none (Stmt.prim 7))

/-- A valid bare block frame. -/
def bfBare : BlockFrameNode :=
  ⟨[], "b", [], none, none, none, [], [], none, [], none, true⟩

/-- The bare block node produced by exiting `bfBare`. -/
def nodeBare : Stmt := Stmt.block "b" [] none none none [] [] none Stmt.evaluate0

/-- A session about to exit a block frame sitting above a statement frame. -/
def sBlock : BuilderState := ⟨[Frame.blockF bfBare, pFrame], []⟩

/-- A session holding only an empty function frame. -/
def sFunc : BuilderState := ⟨[Frame.func ffEmpty], []⟩

/-- The function node produced by exiting `ffEmpty`. -/
def nodeFunc : PrimFunc := PrimFunc.mk none [] none Stmt.evaluate0 [] [] none [] []

/-- The session `sFunc` after two emissions. -/
def sEmit2 : BuilderState := ⟨[pFrame], []⟩

theorem asStmt_combine_rule_witness :
    asStmt [Stmt.prim 0, Stmt.prim 1] = Stmt.seq [Stmt.prim 0, Stmt.prim 1]
    ∧ sAssertDone.frames = pFrame.setStmts (pFrame.stmts.take 1 ++
        [Stmt.assertStmt afEx.condition afEx.message (asStmt (pFrame.stmts.drop 1))]) :: [] :=
  ⟨asStmt_combine_rule.2.2.1 [Stmt.prim 0, Stmt.prim 1] (by decide),
   asStmt_combine_rule.2.2.2.2.2 sAssert sAssertDone afEx 1 pFrame [] rfl rfl⟩

theorem blockExit_binding_arity_witness :
    blockExit bfBad = Except.error BuilderError.blockBindingArityError :=
  ((blockExit_binding_arity bfBad).2.1 rfl).mpr (by decide)

theorem blockExit_realize_wrapping_witness :
    nodeReal = Stmt.blockRealize bfReal.iter_values
      (bfReal.predicate.getD (PrimExpr.boolLit true))
      (Stmt.block bfReal.name bfReal.iter_vars bfReal.reads bfReal.writes bfReal.init
        bfReal.alloc_buffers bfReal.match_buffers bfReal.annots (asStmt bfReal.stmts)) :=
  (blockExit_realize_wrapping bfReal nodeReal rfl).2 rfl

theorem funcExit_validates_bindings_witness :
    funcExit ffUnbound = Except.error BuilderError.unboundBufferParameterError :=
  (funcExit_validates_bindings ffUnbound).2 (by decide)

theorem funcExit_optional_name_ret_witness :
    ∃ node, funcExit ffEmpty = Except.ok node
      ∧ node.name = none ∧ node.ret_type = none :=
  funcExit_optional_name_ret ffEmpty rfl rfl (by decide) (by decide)

theorem assert_exit_never_incomplete_witness :
    step sAssert Event.exitTop ≠ Except.error BuilderError.incompleteAssertionError :=
  assert_exit_never_incomplete sAssert afEx 1 [pFrame] rfl

theorem assertFrame_exit_consumes_witness :
    sAssertDone.frames = pFrame.setStmts (pFrame.stmts.take 1 ++
        [Stmt.assertStmt afEx.condition afEx.message (asStmt (pFrame.stmts.drop 1))]) :: []
    ∧ sAssertDone.globalFuncs = sAssert.globalFuncs
    ∧ (pFrame.setStmts (pFrame.stmts.take 1 ++
        [Stmt.assertStmt afEx.condition afEx.message (asStmt (pFrame.stmts.drop 1))])).stmts.length
      = pFrame.stmts.length - (pFrame.stmts.drop 1).length + 1 :=
  assertFrame_exit_consumes sAssert sAssertDone afEx 1 pFrame [] rfl (by decide) rfl

theorem blockFrame_exit_appends_witness :
    ∃ s', step sBlock Event.exitTop = Except.ok s'
      ∧ s'.frames = pFrame.setStmts (pFrame.stmts ++ [nodeBare]) :: []
      ∧ s'.globalFuncs = sBlock.globalFuncs :=
  (blockFrame_exit_appends sBlock bfBare [pFrame] nodeBare rfl rfl).2 pFrame [] rfl

theorem funcFrame_exit_registers_witness :
    ∃ s', step sFunc Event.exitTop = Except.ok s'
      ∧ s'.frames = [] ∧ s'.globalFuncs = sFunc.globalFuncs ++ [nodeFunc] :=
  funcFrame_exit_registers sFunc ffEmpty [] nodeFunc rfl rfl

theorem statements_append_only_program_order_witness :
    sEmit2.frames = (Frame.func ffEmpty).setStmts
      ((Frame.func ffEmpty).stmts ++ [Stmt.prim 0, Stmt.prim 1]) :: [] :=
  statements_append_only_program_order.2 [Stmt.prim 0, Stmt.prim 1]
    sFunc (Frame.func ffEmpty) [] sEmit2 rfl rfl

end TVMScript
